import Mathlib

/-!
# kmemspy: a shallow embedding of the page service and of the client

Two parts of the repository are embedded.

* `src/kernel/kmemspy.c`, function `kmemspy_read_page_virt`: the kernel calls
  it makes are recorded in a trace, and the results of the kernel primitives
  (`copy_from_user`, `pid_task`, `get_task_mm`, `get_user_pages_remote`,
  `page_is_ram`, `copy_to_user`) are read from an environment record.
* `src/user/kmemspy.cpp`, `Application::run`, `read_page_phys`,
  `read_page_virt` and `main`: unsigned 64-bit and 32-bit arithmetic is
  arithmetic on `Nat` reduced modulo `2^64` and `2^32`; the device behind
  `ioctl` is a function from requests to optional replies; the standard
  output is a list of lines. Behaviour the C++ standard leaves undefined (an
  iterator range that is not a range, a read past the end of a vector, a
  division by zero) is the outcome `Fault.undefined`.
-/

namespace Kmemspy

/-! ## Machine integers -/

/-- Modulus of `uint64_t` arithmetic. -/
def U64 : Nat := 2 ^ 64

/-- Modulus of `uint32_t` arithmetic. -/
def U32 : Nat := 2 ^ 32

/-! ## Kernel side: `kmemspy_read_page_virt` -/

namespace Kernel

/-- Value of the errno constant EFAULT. -/
def EFAULT : Int := 14

/-- Value of the errno constant EINVAL. -/
def EINVAL : Int := 22

/-- The structure `kmemspy_read_page_virt_args` of `kmemspy.h`. -/
structure kmemspy_read_page_virt_args where
  pfn_virt : Nat
  pte : Nat
  data_buf : Nat
  pid : Nat
  deriving DecidableEq, Repr

/-- Kernel primitives called by `kmemspy_read_page_virt`, with their arguments.
A `struct page *` is identified with the frame number of the page. For
`get_user_pages_remote` the last field is the page that was pinned, `none`
when the call returned a value `<= 0`. For the two user copies the last field
tells whether the copy succeeded. -/
inductive Call where
  | copy_from_user (argp : Nat) (ok : Bool)
  | rcu_read_lock
  | rcu_read_unlock
  | pid_task (pid : Nat)
  | get_task_mm (task : Nat)
  | down_read (mm : Nat)
  | up_read (mm : Nat)
  | mmput (mm : Nat)
  | get_user_pages_remote (mm addr : Nat) (pinned : Option Nat)
  | page_is_ram (pfn : Nat)
  | put_page (page : Nat)
  | kmap (page : Nat)
  | kunmap (page : Nat)
  | copy_to_user_data (data_buf page : Nat) (ok : Bool)
  | copy_to_user_args (argp : Nat) (args : kmemspy_read_page_virt_args) (ok : Bool)
  deriving DecidableEq, Repr

/-- What the kernel primitives answer during one call. -/
structure Env where
  /-- The constant PAGE_SHIFT of the host. -/
  PAGE_SHIFT : Nat
  /-- Result of `copy_from_user(&args, argp, sizeof(args))`: the structure read,
  `none` when the copy faults. -/
  user_args : Nat → Option kmemspy_read_page_virt_args
  /-- Result of `pid_task(find_vpid(pid), PIDTYPE_PID)`, `none` for NULL. -/
  pid_task : Nat → Option Nat
  /-- Result of `get_task_mm(task)`, `none` for NULL. -/
  get_task_mm : Nat → Option Nat
  /-- Result of `get_user_pages_remote` for `(mm, address)`: the pinned page
  and the `vm_page_prot.pgprot` of its mapping, `none` when it returns `<= 0`. -/
  get_user_pages_remote : Nat → Nat → Option (Nat × Nat)
  /-- Result of `page_is_ram(pfn)`. -/
  page_is_ram : Nat → Bool
  /-- Whether `copy_to_user` to this user address succeeds (returns 0). -/
  user_writable : Nat → Bool

/-- Return value and trace of kernel calls of one invocation. -/
structure Result where
  ret : Int
  calls : List Call
  deriving DecidableEq, Repr

/-- The function `kmemspy_read_page_virt(argp)` of `src/kernel/kmemspy.c`,
statement by statement. -/
def kmemspy_read_page_virt (env : Env) (argp : Nat) : Result :=
  match env.user_args argp with
  | none => ⟨-EFAULT, [.copy_from_user argp false]⟩
  | some args =>
    let t0 : List Call := [.copy_from_user argp true, .rcu_read_lock, .pid_task args.pid]
    match env.pid_task args.pid with
    | none => ⟨-EINVAL, t0 ++ [.rcu_read_unlock]⟩
    | some task =>
      match env.get_task_mm task with
      | none => ⟨-EINVAL, t0 ++ [.get_task_mm task, .rcu_read_unlock]⟩
      | some mm =>
        let addr := (args.pfn_virt <<< env.PAGE_SHIFT) % U64
        let t1 := t0 ++ [.get_task_mm task, .rcu_read_unlock, .down_read mm]
        match env.get_user_pages_remote mm addr with
        | none =>
          ⟨-EINVAL, t1 ++ [.get_user_pages_remote mm addr none, .up_read mm, .mmput mm]⟩
        | some (page, page_prot) =>
          let t2 := t1 ++ [.get_user_pages_remote mm addr (some page), .page_is_ram page]
          if env.page_is_ram page = false then
            ⟨-EINVAL, t2 ++ [.up_read mm, .mmput mm, .put_page page]⟩
          else
            let t3 := t2 ++ [.up_read mm, .mmput mm, .kmap page]
            if env.user_writable args.data_buf = false then
              ⟨-EFAULT, t3 ++ [.copy_to_user_data args.data_buf page false,
                               .kunmap page, .put_page page]⟩
            else
              let args1 : kmemspy_read_page_virt_args :=
                { args with pte := ((page <<< env.PAGE_SHIFT) % U64) ||| page_prot }
              let t4 := t3 ++ [.copy_to_user_data args.data_buf page true]
              if env.user_writable argp = false then
                ⟨-EFAULT, t4 ++ [.copy_to_user_args argp args1 false]⟩
              else
                ⟨0, t4 ++ [.copy_to_user_args argp args1 true, .kunmap page, .put_page page]⟩

/-- Number of page pins a call takes: successful `get_user_pages_remote`. -/
def pins_taken : Call → Nat
  | .get_user_pages_remote _ _ (some _) => 1
  | _ => 0

/-- Number of page pins a call releases: `put_page`. -/
def pins_released : Call → Nat
  | .put_page _ => 1
  | _ => 0

/-- Number of `kmap` mappings a call creates. -/
def kmaps_taken : Call → Nat
  | .kmap _ => 1
  | _ => 0

/-- Number of `kmap` mappings a call removes: `kunmap`. -/
def kmaps_released : Call → Nat
  | .kunmap _ => 1
  | _ => 0

/-- Total of a per-call count over a trace. -/
def total (f : Call → Nat) (calls : List Call) : Nat :=
  (calls.map f).sum

/-- Whether a call copies something to the caller (data buffer or args). -/
def is_copy_to_user : Call → Bool
  | .copy_to_user_data _ _ _ => true
  | .copy_to_user_args _ _ _ => true
  | _ => false

/-- Whether a call is `get_user_pages_remote`, successful or not. -/
def is_get_user_pages_remote : Call → Bool
  | .get_user_pages_remote _ _ _ => true
  | _ => false

end Kernel

/-! ## User side: `Application` of `src/user/kmemspy.cpp` -/

/-- The two requests of `kmemspy.h`, with the input fields the client fills in
(the address of the data buffer is left out). -/
inductive Request where
  | read_page_virt (pfn_virt pid : Nat)
  | read_page_phys (pfn_phys : Nat)
  deriving DecidableEq, Repr

/-- What the device writes back on a successful `ioctl`: the byte stored at
each offset of the data buffer (PAGE_SIZE bytes) and, for a virtual read, the
field `pte` of the args structure. -/
structure Reply where
  data : Nat → Nat
  pte : Nat

/-- The device behind `/dev/kmemspy`: `none` when `ioctl` returns non-zero. -/
abbrev Device := Request → Option Reply

/-- The member variables of `Application` after the constructor has run. -/
structure Application where
  pid_ : Nat
  addr_is_phys_ : Bool
  region_start_ : Nat
  region_size_ : Nat
  page_size_ : Nat
  deriving DecidableEq, Repr

/-- One line of standard output: a translation-entry line `PTE: 0x...` or a
row, the text from the address label to the end of line with its columns. -/
inductive Line where
  | pte (value : Nat)
  | row (addr : Nat) (cols : List Nat)
  deriving DecidableEq, Repr

/-- Message of the `std::runtime_error` thrown by `mAssert` in `read_page_phys`
(`phys = true`) and `read_page_virt`, with the address it prints. -/
structure Message where
  phys : Bool
  addr : Nat
  deriving DecidableEq, Repr

/-- How a computation ends when it does not return normally. -/
inductive Fault where
  | runtime_error (msg : Message)
  | undefined
  deriving DecidableEq, Repr

/-- The observable world of the client: requests issued to the device,
standard output and standard error, oldest first. -/
structure World where
  requests : List Request
  cout : List Line
  cerr : List Message
  deriving DecidableEq, Repr

/-- The world at program start. -/
def World.init : World := ⟨[], [], []⟩

/-- Unsigned 64-bit subtraction. -/
def sub64 (a b : Nat) : Nat := (a + (U64 - b % U64)) % U64

/-- Line 76: `region_end = region_start_ + region_size_`. -/
def region_end (app : Application) : Nat :=
  (app.region_start_ + app.region_size_) % U64

/-- Line 77: `pfn_start = region_start_ / page_size_`. -/
def pfn_start (app : Application) : Nat :=
  app.region_start_ / app.page_size_

/-- Line 78: `pfn_end = (region_end + (page_size_ - 1)) / page_size_`; the
inner subtraction is 32-bit, the addition 64-bit. -/
def pfn_end (app : Application) : Nat :=
  ((region_end app + (app.page_size_ + (U32 - 1)) % U32) % U64) / app.page_size_

/-- Lines 144-153: `read_page_phys`. -/
def read_page_phys (app : Application) (dev : Device) (pfn : Nat) (w : World) :
    World × Except Fault Reply :=
  let w1 : World := { w with requests := w.requests ++ [Request.read_page_phys pfn] }
  match dev (Request.read_page_phys pfn) with
  | some r => (w1, .ok r)
  | none => (w1, .error (.runtime_error ⟨true, (pfn * app.page_size_) % U64⟩))

/-- Lines 155-168: `read_page_virt`. -/
def read_page_virt (app : Application) (dev : Device) (pfn : Nat) (w : World) :
    World × Except Fault Reply :=
  let w1 : World := { w with requests := w.requests ++ [Request.read_page_virt pfn app.pid_] }
  match dev (Request.read_page_virt pfn app.pid_) with
  | some r => (w1, .ok r)
  | none => (w1, .error (.runtime_error ⟨false, (pfn * app.page_size_) % U64⟩))

/-- Lines 97-100: offsets inside the page of the part that meets the region. -/
def subpage_start (app : Application) (pfn_idx : Nat) : Nat :=
  sub64 (max ((pfn_idx * app.page_size_) % U64) app.region_start_)
    ((pfn_idx * app.page_size_) % U64)

/-- Lines 97-100: end offset inside the page of the part that meets the region. -/
def subpage_end (app : Application) (pfn_idx : Nat) : Nat :=
  sub64 (min (((pfn_idx * app.page_size_) % U64 + app.page_size_) % U64) (region_end app))
    ((pfn_idx * app.page_size_) % U64)

/-- Lines 102-106: `region_data.insert(region_data.end(), page_data.begin() +
subpage_start, page_data.begin() + subpage_end)`; `none` when the two iterators
do not delimit a range of `page_data`. -/
def insert_range (region_data page_data : List Nat) (first last : Nat) : Option (List Nat) :=
  if first ≤ last ∧ last ≤ page_data.length then
    some (region_data ++ (page_data.drop first).take (last - first))
  else none

/-- Lines 83-107: the fetch loop, `n` iterations starting at `pfn_idx`. The loop
`for (pfn_idx = pfn_start; pfn_idx < pfn_end; ++ pfn_idx)` makes exactly
`pfn_end - pfn_start` iterations (none when `pfn_end <= pfn_start`). -/
def fetch_from (app : Application) (dev : Device) :
    Nat → Nat → World → List Nat → List Nat → World × Except Fault (List Nat × List Nat)
  | 0, _, w, region_data, ptes => (w, .ok (region_data, ptes))
  | n + 1, pfn_idx, w, region_data, ptes =>
    match (if app.addr_is_phys_ then read_page_phys app dev pfn_idx w
           else read_page_virt app dev pfn_idx w) with
    | (w1, .error e) => (w1, .error e)
    | (w1, .ok r) =>
      let ptes1 := if app.addr_is_phys_ then ptes else ptes ++ [r.pte]
      let page_data := (List.range app.page_size_).map r.data
      match insert_range region_data page_data (subpage_start app pfn_idx)
          (subpage_end app pfn_idx) with
      | none => (w1, .error .undefined)
      | some region_data1 => fetch_from app dev n (pfn_idx + 1) w1 region_data1 ptes1

/-- Lines 80-107: the whole fetch loop; returns `region_data` and `ptes`. -/
def fetch_loop (app : Application) (dev : Device) (w : World) :
    World × Except Fault (List Nat × List Nat) :=
  fetch_from app dev (pfn_end app - pfn_start app) (pfn_start app) w [] []

/-- Line 111: `row_idx_end = (region_size_ + (row_size - 1)) / row_size`. -/
def row_idx_end (app : Application) : Nat :=
  ((app.region_size_ + 15) % U64) / 16

/-- Line 115: `row_start = region_start_ + (row_idx * row_size)`. -/
def row_start (app : Application) (row_idx : Nat) : Nat :=
  (app.region_start_ + (row_idx * 16) % U64) % U64

/-- Line 119: `pte_idx = (row_start / page_size_) - pfn_start`. -/
def pte_idx (app : Application) (row_idx : Nat) : Nat :=
  sub64 (row_start app row_idx / app.page_size_) (pfn_start app)

/-- Line 132: `col_idx_end = min(cols_per_row, (region_end - row_start) / 4)`. -/
def col_idx_end (app : Application) (row_idx : Nat) : Nat :=
  min 4 (sub64 (region_end app) (row_start app row_idx) / 4)

/-- Line 135: `region_data_idx = (row_idx * cols_per_row + col_idx) * 4`. -/
def region_data_idx (row_idx col_idx : Nat) : Nat :=
  ((((row_idx * 4) % U64 + col_idx) % U64) * 4) % U64

/-- The four bytes at `idx` read as a little-endian 32-bit word. -/
def word32 (region_data : List Nat) (idx : Nat) : Nat :=
  region_data.getD idx 0 + 2 ^ 8 * region_data.getD (idx + 1) 0
    + 2 ^ 16 * region_data.getD (idx + 2) 0 + 2 ^ 24 * region_data.getD (idx + 3) 0

/-- Line 136: `*(uint32_t *)&region_data[region_data_idx]`; `none` when the
four bytes are not all inside the vector. -/
def load32 (region_data : List Nat) (idx : Nat) : Option Nat :=
  if idx + 4 ≤ region_data.length then some (word32 region_data idx) else none

/-- Lines 134-138: the column loop of one row, `n` iterations from `col_idx`. -/
def read_cols (region_data : List Nat) (row_idx : Nat) : Nat → Nat → Option (List Nat)
  | 0, _ => some []
  | n + 1, col_idx =>
    match load32 region_data (region_data_idx row_idx col_idx) with
    | none => none
    | some v =>
      match read_cols region_data row_idx n (col_idx + 1) with
      | none => none
      | some vs => some (v :: vs)

/-- Lines 114-141: the row loop, `n` iterations starting at `row_idx`, with the
current value of `prev_pte_idx`. -/
def render_from (app : Application) (region_data ptes : List Nat) :
    Nat → Nat → Nat → World → World × Except Fault Unit
  | 0, _, _, w => (w, .ok ())
  | n + 1, row_idx, prev_pte_idx, w =>
    let shown : Option (Nat × World) :=
      if app.addr_is_phys_ = false then
        if pte_idx app row_idx ≠ prev_pte_idx then
          match ptes.get? (pte_idx app row_idx) with
          | none => none
          | some v => some (pte_idx app row_idx, { w with cout := w.cout ++ [Line.pte v] })
        else some (prev_pte_idx, w)
      else some (prev_pte_idx, w)
    match shown with
    | none => (w, .error .undefined)
    | some (prev1, w1) =>
      match read_cols region_data row_idx (col_idx_end app row_idx) 0 with
      | none => (w1, .error .undefined)
      | some cols =>
        render_from app region_data ptes n (row_idx + 1) prev1
          { w1 with cout := w1.cout ++ [Line.row (row_start app row_idx) cols] }

/-- Lines 110-141: the rendering of the buffer. -/
def render (app : Application) (region_data ptes : List Nat) (w : World) :
    World × Except Fault Unit :=
  render_from app region_data ptes (row_idx_end app) 0 (ptes.length % U64) w

/-- Lines 74-142: `Application::run`. -/
def run (app : Application) (dev : Device) (w : World) : World × Except Fault Unit :=
  if app.page_size_ = 0 then (w, .error .undefined)
  else
    match fetch_loop app dev w with
    | (w1, .error e) => (w1, .error e)
    | (w1, .ok (region_data, ptes)) => render app region_data ptes w1

/-- Lines 179-189: `main` from the constructed `Application` on; returns the
final world and the exit status, `none` when the behaviour is undefined. -/
def main (app : Application) (dev : Device) : World × Option Nat :=
  match run app dev World.init with
  | (w, .ok ()) => (w, some 0)
  | (w, .error (.runtime_error msg)) => ({ w with cerr := w.cerr ++ [msg] }, some 1)
  | (w, .error .undefined) => (w, none)

/-- The frame numbers the fetch loop iterates over, in order. -/
def footprint (app : Application) : List Nat :=
  List.range' (pfn_start app) (pfn_end app - pfn_start app)

/-- The request `run` issues for a frame: line 88 or line 92. -/
def request (app : Application) (pfn : Nat) : Request :=
  if app.addr_is_phys_ then Request.read_page_phys pfn
  else Request.read_page_virt pfn app.pid_

/-! ## Definitions used to state the results -/

/-- The hypotheses under which the 64-bit arithmetic of `run` does not wrap:
a positive 32-bit page size and `start + size + (page size - 1) < 2^64`. -/
structure NoWrap (app : Application) : Prop where
  pos : 0 < app.page_size_
  small : app.page_size_ < 2 ^ 32
  fits : app.region_start_ + app.region_size_ + app.page_size_ ≤ 2 ^ 64

/-- Reply of the device to a request, with a default when the `ioctl` fails. -/
def reply_of (dev : Device) (req : Request) : Reply :=
  (dev req).getD ⟨fun _ => 0, 0⟩

/-- The byte the device returns for the absolute address `a`: the byte at offset
`a mod page size` of the page returned for frame `a / page size`. -/
def page_byte (app : Application) (dev : Device) (a : Nat) : Nat :=
  (reply_of dev (request app (a / app.page_size_))).data (a % app.page_size_)

/-- Part of the page of frame `p` the fetch loop appends to the buffer. -/
def chunk (app : Application) (dev : Device) (p : Nat) : List Nat :=
  (((List.range app.page_size_).map (reply_of dev (request app p)).data).drop
    (subpage_start app p)).take (subpage_end app p - subpage_start app p)

/-- Concatenation of the parts of `n` consecutive frames from frame `p` on. -/
def chunks (app : Application) (dev : Device) : Nat → Nat → List Nat
  | _, 0 => []
  | p, n + 1 => chunk app dev p ++ chunks app dev (p + 1) n

/-- Translation entries recorded for `n` consecutive frames from frame `p` on. -/
def ptes_of (app : Application) (dev : Device) (p n : Nat) : List Nat :=
  if app.addr_is_phys_ then []
  else (List.range' p n).map (fun f => (reply_of dev (request app f)).pte)

/-- Every frame of the footprint is fetched successfully. -/
def AllFetched (app : Application) (dev : Device) : Prop :=
  ∀ p, pfn_start app ≤ p → p < pfn_end app → (dev (request app p)).isSome = true

/-- Frame that contains the first address of row `i`. -/
def frame_of_row (app : Application) (i : Nat) : Nat :=
  (app.region_start_ + 16 * i) / app.page_size_

/-- Row `i` is the first row that starts in its frame. -/
def first_row_of_frame (app : Application) (i : Nat) : Bool :=
  (List.range i).all (fun j => frame_of_row app j != frame_of_row app i)

/-- The buffer the region should give: byte `k` is the byte of address `start + k`. -/
def region_bytes (app : Application) (dev : Device) : List Nat :=
  (List.range' app.region_start_ app.region_size_).map (page_byte app dev)

/-- Row `i` of a dump of `region_data`: the address `start + 16 i` and the words at
the offsets `16 i + 4 j` for `j < min 4 ((size - 16 i) / 4)`. -/
def expected_row (app : Application) (region_data : List Nat) (i : Nat) : Line :=
  Line.row (app.region_start_ + 16 * i)
    ((List.range (min 4 ((app.region_size_ - 16 * i) / 4))).map
      (fun j => word32 region_data (16 * i + 4 * j)))

/-- Translation-entry line of row `i`, present in virtual mode when the row is
the first one that starts in its frame: the entry returned for that frame. -/
def expected_pte (app : Application) (dev : Device) (i : Nat) : List Line :=
  if app.addr_is_phys_ = false ∧ first_row_of_frame app i = true then
    [Line.pte (reply_of dev (request app (frame_of_row app i))).pte]
  else []

/-- The dump with `rows` rows: each row preceded by its translation-entry line
when it has one. -/
def expected_output (app : Application) (dev : Device) (rows : Nat) : List Line :=
  (List.range rows).flatMap
    (fun i => expected_pte app dev i ++ [expected_row app (region_bytes app dev) i])

/-- Value of `prev_pte_idx` at the start of iteration `i` in virtual mode. -/
def prev_at (app : Application) (ptes : List Nat) (i : Nat) : Nat :=
  if i = 0 then ptes.length % U64 else pte_idx app (i - 1)

/-- A device that answers every request: byte `o` of frame `pfn` is
`(pfn + o) mod 256`, and the translation entry of frame `pfn` is
`pfn * 4096 + 0x25`. -/
def dev_all : Device := fun req =>
  match req with
  | .read_page_virt pfn _ => some ⟨fun o => (pfn + o) % 256, pfn * 4096 + 0x25⟩
  | .read_page_phys pfn => some ⟨fun o => (pfn + o) % 256, 0⟩

/-- The device `dev_all` with frame 2 failing. -/
def dev_fail_2 : Device := fun req =>
  match req with
  | .read_page_virt pfn pid => if pfn = 2 then none else dev_all (.read_page_virt pfn pid)
  | .read_page_phys pfn => if pfn = 2 then none else dev_all (.read_page_phys pfn)

/-- The command `kmemspy --phys fffffffffffffff8 4` with 4096-byte pages: the
last eight bytes but four of the address space. -/
def app_top : Application := ⟨0, true, 0xfffffffffffffff8, 4, 4096⟩

/-- The command `kmemspy -p 7 1ff0 20` with 4096-byte pages. -/
def app_two_pages : Application := ⟨7, false, 0x1FF0, 0x20, 4096⟩

/-- The command `kmemspy -p 7 2000 20` with 4096-byte pages. -/
def app_one_page : Application := ⟨7, false, 0x2000, 0x20, 4096⟩

/-- The command `kmemspy -p 7 ff8 10` with 4096-byte pages: one row, which
starts in frame 0 and ends in frame 1. -/
def app_straddle : Application := ⟨7, false, 0xFF8, 0x10, 4096⟩

/-- A request of process 42 on a mapped RAM page (page 9, protection 0x25): the
data buffer at 0x7000 is writable, the args structure (at any other address) can
be read but not written. -/
def Kernel.env_args_readonly : Kernel.Env :=
  ⟨12, fun _ => some ⟨5, 0, 0x7000, 42⟩, fun _ => some 1, fun _ => some 1,
    fun _ _ => some (9, 0x25), fun _ => true, fun a => a == 0x7000⟩

/-- A request that names process 42 when no process exists. -/
def Kernel.env_no_process : Kernel.Env :=
  ⟨12, fun _ => some ⟨5, 0, 0x7000, 42⟩, fun _ => none, fun _ => some 1,
    fun _ _ => some (9, 0x25), fun _ => true, fun _ => true⟩

/-- A request of an existing process on a virtual page that is not mapped. -/
def Kernel.env_unmapped : Kernel.Env :=
  ⟨12, fun _ => some ⟨5, 0, 0x7000, 42⟩, fun _ => some 1, fun _ => some 1,
    fun _ _ => none, fun _ => true, fun _ => true⟩

/-- A request of an existing process on a mapped page that is not RAM. -/
def Kernel.env_not_ram : Kernel.Env :=
  ⟨12, fun _ => some ⟨5, 0, 0x7000, 42⟩, fun _ => some 1, fun _ => some 1,
    fun _ _ => some (9, 0x25), fun _ => false, fun _ => true⟩

/-! ## Arithmetic of the footprint when nothing wraps -/

theorem sub64_eq {a b : Nat} (hb : b ≤ a) (ha : a < 2 ^ 64) : sub64 a b = a - b := by
  unfold sub64 U64
  omega

theorem region_end_eq {app : Application} (h : NoWrap app) :
    region_end app = app.region_start_ + app.region_size_ := by
  have h1 := h.pos
  have h2 := h.fits
  unfold region_end U64
  omega

theorem pfn_end_eq {app : Application} (h : NoWrap app) :
    pfn_end app = (app.region_start_ + app.region_size_ + (app.page_size_ - 1)) / app.page_size_ := by
  have h1 := h.pos
  have h2 := h.fits
  have h3 := h.small
  unfold pfn_end
  rw [region_end_eq h]
  have e1 : (app.page_size_ + (U32 - 1)) % U32 = app.page_size_ - 1 := by
    unfold U32
    omega
  have e2 : (app.region_start_ + app.region_size_ + (app.page_size_ - 1)) % U64
      = app.region_start_ + app.region_size_ + (app.page_size_ - 1) := by
    unfold U64
    omega
  rw [e1, e2]

/-- A frame below `pfn_end` starts before the end of the region. -/
theorem mul_lt_end {app : Application} (h : NoWrap app) {p : Nat} (hp : p < pfn_end app) :
    p * app.page_size_ + 1 ≤ app.region_start_ + app.region_size_ := by
  have h1 := h.pos
  rw [pfn_end_eq h] at hp
  have h2 : (p + 1) * app.page_size_ ≤
      app.region_start_ + app.region_size_ + (app.page_size_ - 1) :=
    (Nat.le_div_iff_mul_le h1).mp hp
  have h3 : (p + 1) * app.page_size_ = p * app.page_size_ + app.page_size_ := by ring
  omega

/-- A frame below `pfn_end` ends inside the 64-bit address space. -/
theorem succ_mul_le {app : Application} (h : NoWrap app) {p : Nat} (hp : p < pfn_end app) :
    p * app.page_size_ + app.page_size_ ≤ 2 ^ 64 - 1 := by
  have h1 := h.pos
  have hf := h.fits
  rw [pfn_end_eq h] at hp
  have h2 : (p + 1) * app.page_size_ ≤
      app.region_start_ + app.region_size_ + (app.page_size_ - 1) :=
    (Nat.le_div_iff_mul_le h1).mp hp
  have h3 : (p + 1) * app.page_size_ = p * app.page_size_ + app.page_size_ := by ring
  omega

/-- A frame from `pfn_start` on ends after the start of the region. -/
theorem start_lt_succ_mul {app : Application} (h : NoWrap app) {p : Nat}
    (hp : pfn_start app ≤ p) : app.region_start_ + 1 ≤ p * app.page_size_ + app.page_size_ := by
  have h1 := h.pos
  have h2 : app.region_start_ / app.page_size_ < p + 1 := Nat.lt_succ_of_le hp
  have h3 := (Nat.div_lt_iff_lt_mul h1).mp h2
  have h4 : (p + 1) * app.page_size_ = p * app.page_size_ + app.page_size_ := by ring
  omega

/-- The frame `pfn_start` starts at or before the start of the region. -/
theorem pfn_start_mul_le (app : Application) :
    pfn_start app * app.page_size_ ≤ app.region_start_ :=
  Nat.div_mul_le_self _ _

/-- The frame `pfn_end` starts at or after the end of the region. -/
theorem end_le_pfn_end_mul {app : Application} (h : NoWrap app) :
    app.region_start_ + app.region_size_ ≤ pfn_end app * app.page_size_ := by
  have h1 := h.pos
  rw [pfn_end_eq h]
  have h2 := Nat.lt_div_mul_add (a := app.region_start_ + app.region_size_ + (app.page_size_ - 1)) h1
  omega

/-- The loop bounds are ordered. -/
theorem pfn_start_le_pfn_end {app : Application} (h : NoWrap app) :
    pfn_start app ≤ pfn_end app := by
  rw [pfn_end_eq h]
  unfold pfn_start
  exact Nat.div_le_div_right (by omega)

/-- Start offset inside frame `p`, without wrapping. -/
theorem subpage_start_eq {app : Application} (h : NoWrap app) {p : Nat}
    (hp : p < pfn_end app) :
    subpage_start app p = max (p * app.page_size_) app.region_start_ - p * app.page_size_ := by
  have h1 := succ_mul_le h hp
  have h2 := h.fits
  have h3 := h.pos
  unfold subpage_start
  have e : (p * app.page_size_) % U64 = p * app.page_size_ := by
    unfold U64
    omega
  rw [e]
  apply sub64_eq
  · exact Nat.le_max_left _ _
  · rw [Nat.max_def]
    split <;> omega

/-- End offset inside frame `p`, without wrapping. -/
theorem subpage_end_eq {app : Application} (h : NoWrap app) {p : Nat}
    (hp : p < pfn_end app) :
    subpage_end app p = min (p * app.page_size_ + app.page_size_)
      (app.region_start_ + app.region_size_) - p * app.page_size_ := by
  have h1 := succ_mul_le h hp
  have h2 := h.fits
  have h3 := h.pos
  have h4 := mul_lt_end h hp
  unfold subpage_end
  have e : (p * app.page_size_) % U64 = p * app.page_size_ := by
    unfold U64
    omega
  have e2 : (p * app.page_size_ + app.page_size_) % U64 = p * app.page_size_ + app.page_size_ := by
    unfold U64
    omega
  rw [e, e2, region_end_eq h]
  apply sub64_eq
  · rw [Nat.min_def]
    split <;> omega
  · rw [Nat.min_def]
    split <;> omega

/-! ## The fetch loop when every fetch succeeds -/

theorem reply_of_eq {dev : Device} {req : Request} {r : Reply} (h : dev req = some r) :
    reply_of dev req = r := by
  simp [reply_of, h]

/-- The iterator range of line 102 is a range of the page. -/
theorem insert_range_ok {app : Application} (h : NoWrap app) (dev : Device) {p : Nat}
    (hp : pfn_start app ≤ p) (hlt : p < pfn_end app) (acc : List Nat) :
    insert_range acc ((List.range app.page_size_).map (reply_of dev (request app p)).data)
      (subpage_start app p) (subpage_end app p) = some (acc ++ chunk app dev p) := by
  have h1 := mul_lt_end h hlt
  have h2 := start_lt_succ_mul h hp
  have e1 := subpage_start_eq h hlt
  have e2 := subpage_end_eq h hlt
  have c : subpage_start app p ≤ subpage_end app p ∧ subpage_end app p ≤ app.page_size_ := by
    rw [e1, e2, Nat.max_def, Nat.min_def]
    split <;> split <;> omega
  unfold insert_range chunk
  simp [c]

theorem fetch_from_ok {app : Application} {dev : Device} (h : NoWrap app)
    (hall : AllFetched app dev) :
    ∀ (n p : Nat) (w : World) (acc ptes : List Nat),
      pfn_start app ≤ p → p + n = pfn_end app →
      fetch_from app dev n p w acc ptes =
        (⟨w.requests ++ (List.range' p n).map (request app), w.cout, w.cerr⟩,
          .ok (acc ++ chunks app dev p n, ptes ++ ptes_of app dev p n)) := by
  intro n
  induction n with
  | zero =>
    intro p w acc ptes _ _
    simp [fetch_from, chunks, ptes_of]
  | succ n ih =>
    intro p w acc ptes hp hn
    have hlt : p < pfn_end app := by omega
    obtain ⟨r, hr⟩ := Option.isSome_iff_exists.mp (hall p hp hlt)
    have hins := insert_range_ok h dev hp hlt acc
    rw [reply_of_eq hr] at hins
    cases hphys : app.addr_is_phys_ with
    | true =>
      have hreq : request app p = Request.read_page_phys p := by simp [request, hphys]
      rw [hreq] at hr
      have hstep := ih (p + 1) ⟨w.requests ++ [Request.read_page_phys p], w.cout, w.cerr⟩
        (acc ++ chunk app dev p) ptes (by omega) (by omega)
      simp only [fetch_from, hphys, read_page_phys, hr, if_true, hins, hstep]
      simp [chunks, ptes_of, hphys, List.range'_succ, hreq]
    | false =>
      have hreq : request app p = Request.read_page_virt p app.pid_ := by simp [request, hphys]
      have hr0 := hr
      rw [hreq] at hr
      have hstep := ih (p + 1) ⟨w.requests ++ [Request.read_page_virt p app.pid_], w.cout, w.cerr⟩
        (acc ++ chunk app dev p) (ptes ++ [r.pte]) (by omega) (by omega)
      simp only [fetch_from, hphys, read_page_virt, hr]
      simp only [Bool.false_eq_true, if_false]
      rw [hins]
      simp only [hstep]
      simp [chunks, ptes_of, hphys, List.range'_succ, hreq, reply_of_eq hr]

/-- The fetch loop under `NoWrap` when every fetch succeeds. -/
theorem fetch_loop_ok {app : Application} {dev : Device} (h : NoWrap app)
    (hall : AllFetched app dev) (w : World) :
    fetch_loop app dev w =
      (⟨w.requests ++ (footprint app).map (request app), w.cout, w.cerr⟩,
        .ok (chunks app dev (pfn_start app) (pfn_end app - pfn_start app),
             ptes_of app dev (pfn_start app) (pfn_end app - pfn_start app))) := by
  have hle := pfn_start_le_pfn_end h
  unfold fetch_loop footprint
  rw [fetch_from_ok h hall _ _ w [] [] (le_refl _) (by omega)]
  simp

/-! ## Contents of the assembled buffer -/

/-- An address inside frame `p` has frame number `p` and offset `a - p * page size`. -/
theorem div_mod_of_mem_frame (PS p a : Nat) (h1 : p * PS ≤ a) (h2 : a < p * PS + PS) :
    a / PS = p ∧ a % PS = a - p * PS := by
  have hd : a / PS = p := by
    apply Nat.div_eq_of_lt_le
    · exact h1
    · have : (p + 1) * PS = p * PS + PS := by ring
      omega
  refine ⟨hd, ?_⟩
  have h3 := Nat.div_add_mod a PS
  rw [hd, Nat.mul_comm] at h3
  omega

/-- Two adjacent address ranges make one. -/
theorem range_split {a b c : Nat} (hab : a ≤ b) (hbc : b ≤ c) :
    List.range' a (b - a) ++ List.range' b (c - b) = List.range' a (c - a) := by
  obtain ⟨m, rfl⟩ := Nat.exists_eq_add_of_le hab
  obtain ⟨k, rfl⟩ := Nat.exists_eq_add_of_le hbc
  have e1 : a + m - a = m := by omega
  have e2 : a + m + k - (a + m) = k := by omega
  have e3 : a + m + k - a = k + m := by omega
  rw [e1, e2, e3, List.range'_append_1]

/-- The part of frame `p` appended to the buffer, as bytes of absolute addresses. -/
theorem chunk_eq {app : Application} (h : NoWrap app) (dev : Device) {p : Nat}
    (hp : pfn_start app ≤ p) (hlt : p < pfn_end app) :
    chunk app dev p =
      (List.range' (max (p * app.page_size_) app.region_start_)
        (min (p * app.page_size_ + app.page_size_) (app.region_start_ + app.region_size_)
          - max (p * app.page_size_) app.region_start_)).map (page_byte app dev) := by
  have h1 := mul_lt_end h hlt
  have h2 := start_lt_succ_mul h hp
  have e1 := subpage_start_eq h hlt
  have e2 := subpage_end_eq h hlt
  have hmax : p * app.page_size_ ≤ max (p * app.page_size_) app.region_start_ :=
    Nat.le_max_left _ _
  have hmin : min (p * app.page_size_ + app.page_size_) (app.region_start_ + app.region_size_)
      ≤ p * app.page_size_ + app.page_size_ := Nat.min_le_left _ _
  have hlohi : max (p * app.page_size_) app.region_start_ ≤
      min (p * app.page_size_ + app.page_size_) (app.region_start_ + app.region_size_) := by
    rw [Nat.max_def, Nat.min_def]
    split <;> split <;> omega
  unfold chunk
  rw [e1, e2]
  apply List.ext_getElem
  · simp
    omega
  · intro k hk1 hk2
    simp at hk2
    have hfr := div_mod_of_mem_frame app.page_size_ p
      (max (p * app.page_size_) app.region_start_ + k) (by omega) (by omega)
    simp [page_byte, hfr.1, hfr.2]
    congr 1
    omega

/-- The parts of the frames from `p` to the end of the footprint, as bytes of
absolute addresses. -/
theorem chunks_eq {app : Application} (h : NoWrap app) (dev : Device) :
    ∀ (n p : Nat), pfn_start app ≤ p → p + n = pfn_end app →
      chunks app dev p n =
        (List.range' (max (p * app.page_size_) app.region_start_)
          (app.region_start_ + app.region_size_
            - max (p * app.page_size_) app.region_start_)).map (page_byte app dev) := by
  intro n
  induction n with
  | zero =>
    intro p _ hn
    have h1 := end_le_pfn_end_mul h
    simp only [Nat.add_zero] at hn
    subst hn
    have hmax : pfn_end app * app.page_size_ ≤
        max (pfn_end app * app.page_size_) app.region_start_ := Nat.le_max_left _ _
    have hz : app.region_start_ + app.region_size_
        - max (pfn_end app * app.page_size_) app.region_start_ = 0 := by omega
    simp [chunks, hz]
  | succ n ih =>
    intro p hp hn
    have hlt : p < pfn_end app := by omega
    have h1 := mul_lt_end h hlt
    have h2 := start_lt_succ_mul h hp
    have hnext : (p + 1) * app.page_size_ = p * app.page_size_ + app.page_size_ := by ring
    have hmax1 : max ((p + 1) * app.page_size_) app.region_start_
        = p * app.page_size_ + app.page_size_ := by
      rw [hnext, Nat.max_def]
      split <;> omega
    simp only [chunks]
    rw [chunk_eq h dev hp hlt, ih (p + 1) (by omega) (by omega), hmax1, ← List.map_append]
    congr 1
    by_cases hc : p * app.page_size_ + app.page_size_ ≤ app.region_start_ + app.region_size_
    · rw [Nat.min_eq_left hc]
      have hlo : max (p * app.page_size_) app.region_start_
          ≤ p * app.page_size_ + app.page_size_ := by
        rw [Nat.max_def]
        split <;> omega
      exact range_split hlo hc
    · have hc2 : app.region_start_ + app.region_size_ ≤ p * app.page_size_ + app.page_size_ := by
        omega
      rw [Nat.min_eq_right hc2]
      have hz : app.region_start_ + app.region_size_
          - (p * app.page_size_ + app.page_size_) = 0 := by omega
      simp [hz]

/-- The buffer assembled by the fetch loop: byte `i` is the byte the device
returns for the address `start + i`. -/
theorem chunks_footprint {app : Application} (h : NoWrap app) (dev : Device) :
    chunks app dev (pfn_start app) (pfn_end app - pfn_start app) =
      (List.range' app.region_start_ app.region_size_).map (page_byte app dev) := by
  have hle := pfn_start_le_pfn_end h
  have h0 := pfn_start_mul_le app
  rw [chunks_eq h dev _ _ (le_refl _) (by omega), Nat.max_eq_right h0]
  congr 2
  omega

theorem chunks_footprint_length {app : Application} (h : NoWrap app) (dev : Device) :
    (chunks app dev (pfn_start app) (pfn_end app - pfn_start app)).length
      = app.region_size_ := by
  rw [chunks_footprint h dev]
  simp

theorem ptes_of_length (app : Application) (dev : Device) (p n : Nat) :
    (ptes_of app dev p n).length = if app.addr_is_phys_ then 0 else n := by
  unfold ptes_of
  split <;> simp

/-! ## The rendering loop -/

/-- A row inside the loop bound starts inside the region. -/
theorem row_in_region {app : Application} {i : Nat} (hi : i < row_idx_end app) :
    16 * i + 1 ≤ app.region_size_ := by
  unfold row_idx_end U64 at hi
  omega

theorem row_start_eq {app : Application} (h : NoWrap app) {i : Nat} (hi : i < row_idx_end app) :
    row_start app i = app.region_start_ + 16 * i := by
  have h1 := row_in_region hi
  have h2 := h.fits
  unfold row_start U64
  omega

theorem col_idx_end_eq {app : Application} (h : NoWrap app) {i : Nat}
    (hi : i < row_idx_end app) :
    col_idx_end app i = min 4 ((app.region_size_ - 16 * i) / 4) := by
  have h1 := row_in_region hi
  have h2 := h.fits
  have h3 := h.pos
  unfold col_idx_end
  rw [row_start_eq h hi, region_end_eq h, sub64_eq (by omega) (by omega)]
  congr 2
  omega

theorem region_data_idx_eq {app : Application} (h : NoWrap app) {i j : Nat}
    (hi : i < row_idx_end app) (hj : j < 4) : region_data_idx i j = 16 * i + 4 * j := by
  have h1 := row_in_region hi
  have h2 := h.fits
  unfold region_data_idx U64
  omega

/-- Every word the column loop reads lies inside a buffer of `size` bytes. -/
theorem region_data_idx_in_bounds {app : Application} (h : NoWrap app) {i j : Nat}
    (hi : i < row_idx_end app) (hj : j < col_idx_end app i) :
    region_data_idx i j + 4 ≤ app.region_size_ := by
  have h1 := row_in_region hi
  rw [col_idx_end_eq h hi] at hj
  have hj4 : j < 4 := by omega
  rw [region_data_idx_eq h hi hj4]
  omega

/-- The column loop on a buffer that holds every word it reads. -/
theorem read_cols_ok (region_data : List Nat) (i : Nat) :
    ∀ (n c : Nat),
      (∀ j, c ≤ j → j < c + n → region_data_idx i j + 4 ≤ region_data.length) →
      read_cols region_data i n c =
        some ((List.range' c n).map (fun j => word32 region_data (region_data_idx i j))) := by
  intro n
  induction n with
  | zero =>
    intro c _
    simp [read_cols]
  | succ n ih =>
    intro c hb
    have h0 := hb c (le_refl _) (by omega)
    have ht := ih (c + 1) (fun j h1 h2 => hb j (by omega) (by omega))
    simp [read_cols, load32, h0, ht, List.range'_succ]

/-- The columns of row `i` on a buffer of `size` bytes. -/
theorem read_cols_row {app : Application} (h : NoWrap app) {region_data : List Nat}
    (hlen : region_data.length = app.region_size_) {i : Nat} (hi : i < row_idx_end app) :
    read_cols region_data i (col_idx_end app i) 0 =
      some ((List.range (min 4 ((app.region_size_ - 16 * i) / 4))).map
        (fun j => word32 region_data (16 * i + 4 * j))) := by
  rw [read_cols_ok region_data i (col_idx_end app i) 0
    (fun j _ h2 => by
      rw [hlen]
      exact region_data_idx_in_bounds h hi (by omega))]
  rw [col_idx_end_eq h hi, ← List.range_eq_range']
  congr 1
  apply List.map_congr_left
  intro j hj
  rw [List.mem_range] at hj
  rw [region_data_idx_eq h hi (by omega)]

/-- The frames of the row starts do not decrease. -/
theorem frame_of_row_mono (app : Application) {j i : Nat} (hji : j ≤ i) :
    frame_of_row app j ≤ frame_of_row app i := by
  unfold frame_of_row
  exact Nat.div_le_div_right (by omega)

/-- The frame of a row start belongs to the footprint. -/
theorem frame_of_row_mem {app : Application} (h : NoWrap app) {i : Nat}
    (hi : i < row_idx_end app) :
    pfn_start app ≤ frame_of_row app i ∧ frame_of_row app i < pfn_end app := by
  have h1 := row_in_region hi
  have h2 := end_le_pfn_end_mul h
  constructor
  · unfold frame_of_row pfn_start
    exact Nat.div_le_div_right (by omega)
  · unfold frame_of_row
    exact (Nat.div_lt_iff_lt_mul h.pos).mpr (by omega)

theorem pte_idx_eq {app : Application} (h : NoWrap app) {i : Nat} (hi : i < row_idx_end app) :
    pte_idx app i = frame_of_row app i - pfn_start app := by
  have h1 := row_in_region hi
  have h2 := h.fits
  have h3 := (frame_of_row_mem h hi).1
  have h4 : frame_of_row app i ≤ app.region_start_ + 16 * i := Nat.div_le_self _ _
  unfold pte_idx
  rw [row_start_eq h hi]
  change sub64 (frame_of_row app i) (pfn_start app) = _
  exact sub64_eq h3 (by omega)

/-- Row `i` is the first of its frame exactly when it is row 0 or the row before
starts in another frame. -/
theorem first_row_of_frame_iff (app : Application) (i : Nat) :
    first_row_of_frame app i = true ↔
      (i = 0 ∨ frame_of_row app (i - 1) ≠ frame_of_row app i) := by
  unfold first_row_of_frame
  simp only [List.all_eq_true, List.mem_range, bne_iff_ne, ne_eq]
  constructor
  · intro hall
    by_cases h0 : i = 0
    · exact Or.inl h0
    · exact Or.inr (hall (i - 1) (by omega))
  · rintro (h0 | hne) j hj
    · omega
    · have h1 := frame_of_row_mono app (j := j) (i := i - 1) (by omega)
      have h2 := frame_of_row_mono app (j := i - 1) (i := i) (by omega)
      omega

/-- Entry `k` of the recorded translation entries, in virtual mode. -/
theorem ptes_of_get {app : Application} (dev : Device) (hv : app.addr_is_phys_ = false)
    (p n : Nat) {k : Nat} (hk : k < n) :
    (ptes_of app dev p n).get? k = some (reply_of dev (request app (p + k))).pte := by
  unfold ptes_of
  simp [hv, List.getElem?_range' p 1 hk]

/-- In virtual mode a row exists only if a frame was fetched, and the number of
recorded entries fits 64 bits. -/
theorem ptes_length_mod {app : Application} (h : NoWrap app) (dev : Device)
    (hv : app.addr_is_phys_ = false) :
    (ptes_of app dev (pfn_start app) (pfn_end app - pfn_start app)).length % U64
      = pfn_end app - pfn_start app := by
  have h1 := h.pos
  have h2 := h.fits
  have h3 : pfn_end app ≤ app.region_start_ + app.region_size_ + (app.page_size_ - 1) := by
    rw [pfn_end_eq h]
    exact Nat.div_le_self _ _
  rw [ptes_of_length, hv]
  simp only [Bool.false_eq_true, if_false]
  unfold U64
  omega

/-- The test `pte_idx != prev_pte_idx` of line 121 holds exactly for the first
row that starts in each frame. -/
theorem pte_shown_iff {app : Application} (h : NoWrap app) (dev : Device)
    (hv : app.addr_is_phys_ = false) {i : Nat} (hi : i < row_idx_end app) :
    pte_idx app i ≠
        prev_at app (ptes_of app dev (pfn_start app) (pfn_end app - pfn_start app)) i ↔
      first_row_of_frame app i = true := by
  rw [first_row_of_frame_iff]
  unfold prev_at
  have hm := frame_of_row_mem h hi
  by_cases h0 : i = 0
  · subst h0
    rw [if_pos rfl, ptes_length_mod h dev hv, pte_idx_eq h hi]
    simp
    omega
  · have hi1 : i - 1 < row_idx_end app := by omega
    have hm1 := frame_of_row_mem h hi1
    rw [if_neg h0, pte_idx_eq h hi, pte_idx_eq h hi1]
    constructor
    · intro hne
      right
      omega
    · rintro (hz | hne)
      · omega
      · omega

/-- The rendering loop on a buffer of `size` bytes and the recorded entries. -/
theorem render_from_ok {app : Application} (h : NoWrap app) (dev : Device)
    {region_data : List Nat} (hlen : region_data.length = app.region_size_) :
    ∀ (n i prev : Nat) (w : World), i + n = row_idx_end app →
      (app.addr_is_phys_ = false → prev =
        prev_at app (ptes_of app dev (pfn_start app) (pfn_end app - pfn_start app)) i) →
      render_from app region_data
          (ptes_of app dev (pfn_start app) (pfn_end app - pfn_start app)) n i prev w =
        (⟨w.requests, w.cout ++ (List.range' i n).flatMap
            (fun r => expected_pte app dev r ++ [expected_row app region_data r]), w.cerr⟩,
          .ok ()) := by
  intro n
  induction n with
  | zero =>
    intro i prev w _ _
    simp [render_from]
  | succ n ih =>
    intro i prev w hn hprev
    have hi : i < row_idx_end app := by omega
    have hcols := read_cols_row h hlen hi
    have hrow := row_start_eq h hi
    cases hphys : app.addr_is_phys_ with
    | true =>
      have hstep := ih (i + 1) prev
        ⟨w.requests, w.cout ++ [expected_row app region_data i], w.cerr⟩ (by omega)
        (by intro hv; rw [hphys] at hv; cases hv)
      simp only [render_from, hphys, hcols, hrow]
      simp only [Bool.true_eq_false, if_false]
      rw [show Line.row (app.region_start_ + 16 * i) _ = expected_row app region_data i from rfl]
      rw [hstep]
      simp [List.range'_succ, expected_pte, hphys]
    | false =>
      have hp := hprev hphys
      have hm := frame_of_row_mem h hi
      have hidx := pte_idx_eq h hi
      have hiff := pte_shown_iff h dev hphys hi
      rw [← hp] at hiff
      by_cases hs : pte_idx app i = prev
      · have hnf : ¬ (first_row_of_frame app i = true) := fun hf => (hiff.mpr hf) hs
        have hnext : app.addr_is_phys_ = false → prev =
            prev_at app (ptes_of app dev (pfn_start app) (pfn_end app - pfn_start app))
              (i + 1) := by
          intro _
          simp [prev_at, hs]
        have hstep := ih (i + 1) prev
          ⟨w.requests, w.cout ++ [expected_row app region_data i], w.cerr⟩ (by omega) hnext
        simp only [render_from, hphys, hcols, hrow]
        simp only [hs, ne_eq, not_true_eq_false, if_false, if_true]
        rw [show Line.row (app.region_start_ + 16 * i) _ = expected_row app region_data i
          from rfl]
        rw [hstep]
        simp [List.range'_succ, expected_pte, hphys, hnf]
      · have hf : first_row_of_frame app i = true := hiff.mp hs
        have hget := ptes_of_get dev hphys (pfn_start app) (pfn_end app - pfn_start app)
          (k := pte_idx app i) (by omega)
        have hfr : pfn_start app + pte_idx app i = frame_of_row app i := by omega
        rw [hfr] at hget
        have hnext : app.addr_is_phys_ = false → pte_idx app i =
            prev_at app (ptes_of app dev (pfn_start app) (pfn_end app - pfn_start app))
              (i + 1) := by
          intro _
          simp [prev_at]
        have hstep := ih (i + 1) (pte_idx app i)
          ⟨w.requests, w.cout ++ [Line.pte (reply_of dev (request app (frame_of_row app i))).pte]
            ++ [expected_row app region_data i], w.cerr⟩ (by omega) hnext
        simp only [render_from, hphys, hcols, hrow, hget]
        simp only [hs, ne_eq, not_false_eq_true, if_true]
        rw [show Line.row (app.region_start_ + 16 * i) _ = expected_row app region_data i
          from rfl]
        rw [hstep]
        simp [List.range'_succ, expected_pte, hphys, hf]

/-! ## The whole of `run` and `main` -/

/-- Under `NoWrap`, when every fetch succeeds, `run` requests the frames of the
footprint in order and prints the dump of the region. -/
theorem run_ok {app : Application} {dev : Device} (h : NoWrap app)
    (hall : AllFetched app dev) (w : World) :
    run app dev w =
      (⟨w.requests ++ (footprint app).map (request app),
        w.cout ++ expected_output app dev (row_idx_end app), w.cerr⟩, .ok ()) := by
  have hps : app.page_size_ ≠ 0 := Nat.pos_iff_ne_zero.mp h.pos
  have hlen := chunks_footprint_length h dev
  unfold run
  rw [if_neg hps, fetch_loop_ok h hall w]
  simp only [render]
  rw [render_from_ok h dev hlen (row_idx_end app) 0 _ _ (by omega)
    (by intro _; simp [prev_at])]
  simp only [expected_output, region_bytes, chunks_footprint h dev, List.range_eq_range']

/-- Under `NoWrap`, when every fetch succeeds, `main` exits with status 0. -/
theorem main_ok {app : Application} {dev : Device} (h : NoWrap app)
    (hall : AllFetched app dev) :
    main app dev =
      (⟨(footprint app).map (request app), expected_output app dev (row_idx_end app), []⟩,
        some 0) := by
  unfold main
  rw [run_ok h hall]
  simp [World.init]

/-- The number of rows when `size + 15` does not wrap. -/
theorem row_idx_end_eq {app : Application} (h : app.region_size_ + 15 < 2 ^ 64) :
    row_idx_end app = (app.region_size_ + 15) / 16 := by
  unfold row_idx_end U64
  omega

/-! ## A failing fetch -/

/-- A fetch that fails ends the loop with the exception of `mAssert`. -/
theorem fetch_from_fail_now (app : Application) (dev : Device) (n p : Nat) (w : World)
    (acc ptes : List Nat) (hfail : dev (request app p) = none) :
    fetch_from app dev (n + 1) p w acc ptes =
      (⟨w.requests ++ [request app p], w.cout, w.cerr⟩,
        .error (.runtime_error ⟨app.addr_is_phys_, (p * app.page_size_) % U64⟩)) := by
  cases hphys : app.addr_is_phys_ with
  | true =>
    have hreq : request app p = Request.read_page_phys p := by simp [request, hphys]
    rw [hreq] at hfail
    simp [fetch_from, hphys, read_page_phys, hfail, hreq]
  | false =>
    have hreq : request app p = Request.read_page_virt p app.pid_ := by simp [request, hphys]
    rw [hreq] at hfail
    simp [fetch_from, hphys, read_page_virt, hfail, hreq]

/-- One successful iteration of the fetch loop under `NoWrap`. -/
theorem fetch_from_step {app : Application} {dev : Device} (h : NoWrap app) {p : Nat}
    (hp : pfn_start app ≤ p) (hlt : p < pfn_end app) {r : Reply}
    (hr : dev (request app p) = some r) (n : Nat) (w : World) (acc ptes : List Nat) :
    fetch_from app dev (n + 1) p w acc ptes =
      fetch_from app dev n (p + 1) ⟨w.requests ++ [request app p], w.cout, w.cerr⟩
        (acc ++ chunk app dev p) (if app.addr_is_phys_ then ptes else ptes ++ [r.pte]) := by
  have hins := insert_range_ok h dev hp hlt acc
  rw [reply_of_eq hr] at hins
  cases hphys : app.addr_is_phys_ with
  | true =>
    have hreq : request app p = Request.read_page_phys p := by simp [request, hphys]
    rw [hreq] at hr
    simp only [fetch_from, hphys, read_page_phys, hr, if_true, hins, hreq]
  | false =>
    have hreq : request app p = Request.read_page_virt p app.pid_ := by simp [request, hphys]
    rw [hreq] at hr
    simp only [fetch_from, hphys, read_page_virt, hr, hreq]
    simp only [Bool.false_eq_true, if_false]
    rw [hins]

/-- After `k` successful fetches the failing one ends the loop: the requests are
those of the frames `p .. p + k`. -/
theorem fetch_from_fail {app : Application} {dev : Device} (h : NoWrap app) :
    ∀ (k n p : Nat) (w : World) (acc ptes : List Nat),
      pfn_start app ≤ p → p + k < pfn_end app → k < n →
      (∀ j, j < k → (dev (request app (p + j))).isSome = true) →
      dev (request app (p + k)) = none →
      fetch_from app dev n p w acc ptes =
        (⟨w.requests ++ (List.range' p (k + 1)).map (request app), w.cout, w.cerr⟩,
          .error (.runtime_error ⟨app.addr_is_phys_, ((p + k) * app.page_size_) % U64⟩)) := by
  intro k
  induction k with
  | zero =>
    intro n p w acc ptes _ _ hn _ hfail
    obtain ⟨m, rfl⟩ : ∃ m, n = m + 1 := ⟨n - 1, by omega⟩
    simpa using fetch_from_fail_now app dev m p w acc ptes hfail
  | succ k ih =>
    intro n p w acc ptes hp hlt hn hprev hfail
    obtain ⟨m, rfl⟩ : ∃ m, n = m + 1 := ⟨n - 1, by omega⟩
    obtain ⟨r, hr⟩ := Option.isSome_iff_exists.mp (hprev 0 (by omega))
    rw [Nat.add_zero] at hr
    rw [fetch_from_step h hp (by omega) hr]
    have e : p + 1 + k = p + (k + 1) := by omega
    rw [ih m (p + 1) _ _ _ (by omega) (by omega) (by omega)
      (fun j hj => by
        have := hprev (j + 1) (by omega)
        rwa [show p + (j + 1) = p + 1 + j from by omega] at this)
      (by rwa [e])]
    simp [List.range'_succ p (k + 1), e]

/-- A footprint of two frames or more only arises when nothing wraps. -/
theorem nowrap_of_two_frames {app : Application} (hs : app.region_start_ < 2 ^ 64)
    (hz : app.region_size_ < 2 ^ 64) (hps : app.page_size_ < 2 ^ 32)
    (h2 : pfn_start app + 1 < pfn_end app) : NoWrap app := by
  have hpos : 0 < app.page_size_ := by
    rcases Nat.eq_zero_or_pos app.page_size_ with h0 | h0
    · simp [pfn_end, h0] at h2
    · exact h0
  have e1 : (app.page_size_ + (U32 - 1)) % U32 = app.page_size_ - 1 := by
    unfold U32
    omega
  have hlt : pfn_start app + 1 < ((region_end app + (app.page_size_ - 1)) % U64)
      / app.page_size_ := by
    have := h2
    unfold pfn_end at this
    rwa [e1] at this
  have h3 : (pfn_start app + 1 + 1) * app.page_size_ ≤
      (region_end app + (app.page_size_ - 1)) % U64 :=
    (Nat.le_div_iff_mul_le hpos).mp hlt
  have h4 : app.region_start_ < pfn_start app * app.page_size_ + app.page_size_ :=
    Nat.lt_div_mul_add hpos
  have h5 : (pfn_start app + 1 + 1) * app.page_size_
      = pfn_start app * app.page_size_ + app.page_size_ + app.page_size_ := by ring
  refine ⟨hpos, hps, ?_⟩
  unfold region_end U64 at h3
  omega

/-- Under `NoWrap`, when every fetch succeeds, the fetch loop returns a buffer of
`size` bytes whose byte `i` is the byte the device returns for `start + i`. -/
theorem fetch_loop_bytes {app : Application} {dev : Device} (h : NoWrap app)
    (hall : AllFetched app dev) (w : World) :
    ∃ w1 region_data ptes, fetch_loop app dev w = (w1, .ok (region_data, ptes)) ∧
      region_data.length = app.region_size_ ∧
      ∀ i, i < app.region_size_ →
        region_data.get? i = some (page_byte app dev (app.region_start_ + i)) := by
  refine ⟨_, _, _, fetch_loop_ok h hall w, chunks_footprint_length h dev, ?_⟩
  intro i hi
  rw [chunks_footprint h dev]
  simp [List.getElem?_range' app.region_start_ 1 hi]

/-- Every call of `kmemspy_read_page_virt` leaves as many pins and mappings as it
found, except the one that fails writing the args structure back. -/
theorem Kernel.read_page_virt_balance (env : Kernel.Env) (argp : Nat) :
    (Kernel.total Kernel.pins_taken (Kernel.kmemspy_read_page_virt env argp).calls
        = Kernel.total Kernel.pins_released (Kernel.kmemspy_read_page_virt env argp).calls ∧
      Kernel.total Kernel.kmaps_taken (Kernel.kmemspy_read_page_virt env argp).calls
        = Kernel.total Kernel.kmaps_released (Kernel.kmemspy_read_page_virt env argp).calls) ∨
    ((∃ args, (Kernel.kmemspy_read_page_virt env argp).calls.getLast?
        = some (Kernel.Call.copy_to_user_args argp args false)) ∧
      Kernel.total Kernel.pins_taken (Kernel.kmemspy_read_page_virt env argp).calls
        = Kernel.total Kernel.pins_released (Kernel.kmemspy_read_page_virt env argp).calls + 1 ∧
      Kernel.total Kernel.kmaps_taken (Kernel.kmemspy_read_page_virt env argp).calls
        = Kernel.total Kernel.kmaps_released (Kernel.kmemspy_read_page_virt env argp).calls + 1)
    := by
  cases h1 : env.user_args argp with
  | none =>
    left
    simp [Kernel.kmemspy_read_page_virt, h1, Kernel.total, Kernel.pins_taken,
      Kernel.pins_released, Kernel.kmaps_taken, Kernel.kmaps_released]
  | some args =>
    cases h2 : env.pid_task args.pid with
    | none =>
      left
      simp [Kernel.kmemspy_read_page_virt, h1, h2, Kernel.total, Kernel.pins_taken,
        Kernel.pins_released, Kernel.kmaps_taken, Kernel.kmaps_released]
    | some task =>
      cases h3 : env.get_task_mm task with
      | none =>
        left
        simp [Kernel.kmemspy_read_page_virt, h1, h2, h3, Kernel.total, Kernel.pins_taken,
          Kernel.pins_released, Kernel.kmaps_taken, Kernel.kmaps_released]
      | some mm =>
        cases h4 : env.get_user_pages_remote mm ((args.pfn_virt <<< env.PAGE_SHIFT) % U64) with
        | none =>
          left
          simp [Kernel.kmemspy_read_page_virt, h1, h2, h3, h4, Kernel.total,
            Kernel.pins_taken, Kernel.pins_released, Kernel.kmaps_taken,
            Kernel.kmaps_released]
        | some pp =>
          obtain ⟨page, page_prot⟩ := pp
          cases h5 : env.page_is_ram page with
          | false =>
            left
            simp [Kernel.kmemspy_read_page_virt, h1, h2, h3, h4, h5, Kernel.total,
              Kernel.pins_taken, Kernel.pins_released, Kernel.kmaps_taken,
              Kernel.kmaps_released]
          | true =>
            cases h6 : env.user_writable args.data_buf with
            | false =>
              left
              simp [Kernel.kmemspy_read_page_virt, h1, h2, h3, h4, h5, h6, Kernel.total,
                Kernel.pins_taken, Kernel.pins_released, Kernel.kmaps_taken,
                Kernel.kmaps_released]
            | true =>
              cases h7 : env.user_writable argp with
              | false =>
                right
                simp [Kernel.kmemspy_read_page_virt, h1, h2, h3, h4, h5, h6, h7,
                  Kernel.total, Kernel.pins_taken, Kernel.pins_released,
                  Kernel.kmaps_taken, Kernel.kmaps_released]
              | true =>
                left
                simp [Kernel.kmemspy_read_page_virt, h1, h2, h3, h4, h5, h6, h7,
                  Kernel.total, Kernel.pins_taken, Kernel.pins_released,
                  Kernel.kmaps_taken, Kernel.kmaps_released]

theorem dev_all_fetched (app : Application) : AllFetched app dev_all := by
  intro p _ _
  unfold request
  split <;> rfl

/-- The one-page scenario: the virtual region `start = 0x2000`, `size = 0x20` with
4096-byte pages has the footprint `[2]` and a dump of one translation-entry line
and two rows of four columns, at `0x2000` and `0x2010`. -/
theorem one_page_scenario :
    footprint app_one_page = [2] ∧
    main app_one_page dev_all =
      (⟨[Request.read_page_virt 2 7],
        [Line.pte 0x2025, Line.row 0x2000 [0x05040302, 0x09080706, 0x0d0c0b0a, 0x11100f0e],
         Line.row 0x2010 [0x15141312, 0x19181716, 0x1d1c1b1a, 0x21201f1e]], []⟩, some 0) := by
  constructor
  · decide
  · rw [main_ok ⟨by decide, by decide, by decide⟩ (dev_all_fetched _)]
    decide

/-! ## The claims -/

/-- C1, as the code behaves at the top of the address space: for the region
`start = 0xfffffffffffffff8`, `size = 4` with 4096-byte pages, where
`start + size < 2^64`, the fetch loop issues no request and returns an empty
buffer, so byte 0 of the buffer does not exist although `0 < size`; the sum
`region_end + (page_size_ - 1)` of line 78 wraps and `pfn_end` is 0. -/
theorem C1_top_page_buffer_lacks_byte_zero :
    app_top.region_start_ + app_top.region_size_ < 2 ^ 64 ∧ 0 < app_top.region_size_ ∧
    pfn_end app_top = 0 ∧
    ∀ (dev : Device) (w : World), ∃ region_data ptes,
      fetch_loop app_top dev w = (w, .ok (region_data, ptes)) ∧ region_data.get? 0 = none := by
  refine ⟨by decide, by decide, by decide, ?_⟩
  intro dev w
  exact ⟨[], [], rfl, rfl⟩

/-- C2, as the code behaves at the top of the address space: for the region
`start = 0xfffffffffffffff8`, `size = 4` with 4096-byte pages the buffer after
the fetch loop has length 0, not 4, whatever the device answers. -/
theorem C2_top_page_buffer_length_zero :
    app_top.region_size_ = 4 ∧
    ∀ (dev : Device) (w : World), ∃ region_data ptes,
      fetch_loop app_top dev w = (w, .ok (region_data, ptes)) ∧ region_data.length = 0 := by
  refine ⟨rfl, ?_⟩
  intro dev w
  exact ⟨[], [], rfl, rfl⟩

/-- C3, as the code behaves when the args structure cannot be written back: the
call returns `-EFAULT` after one pin and one `kmap`, with no `put_page` and no
`kunmap` (line 86 returns without the two releases of lines 88-89). -/
theorem C3_args_copy_failure_leaks_pin :
    (Kernel.kmemspy_read_page_virt Kernel.env_args_readonly 0x6000).ret = -Kernel.EFAULT ∧
    Kernel.total Kernel.pins_taken
      (Kernel.kmemspy_read_page_virt Kernel.env_args_readonly 0x6000).calls = 1 ∧
    Kernel.total Kernel.pins_released
      (Kernel.kmemspy_read_page_virt Kernel.env_args_readonly 0x6000).calls = 0 ∧
    Kernel.total Kernel.kmaps_taken
      (Kernel.kmemspy_read_page_virt Kernel.env_args_readonly 0x6000).calls = 1 ∧
    Kernel.total Kernel.kmaps_released
      (Kernel.kmemspy_read_page_virt Kernel.env_args_readonly 0x6000).calls = 0 := by
  decide

/-- C4 fails as stated: the region `start = 0x1FF0`, `size = 0x20` with
4096-byte pages has the footprint `[1, 2]`, two frames, while
`ceil(size / PS) = 1`. -/
theorem C4_counterexample :
    footprint app_two_pages = [1, 2] ∧
    (app_two_pages.region_size_ + (app_two_pages.page_size_ - 1)) / app_two_pages.page_size_
      = 1 := by
  decide

/-- C4, amended: when `PS > 0` and `start + size + PS - 1 < 2^64` the footprint is
the list of the frames `floor(start / PS) .. ceil((start + size) / PS) - 1`, so it
has `ceil((start + size) / PS) - floor(start / PS)` frames; that is `ceil(size / PS)`
when `start` is a multiple of `PS`, and `ceil(size / PS)` or `ceil(size / PS) + 1`
otherwise. -/
theorem C4_footprint_length (app : Application) (hpos : 0 < app.page_size_)
    (hsmall : app.page_size_ < 2 ^ 32)
    (hfit : app.region_start_ + app.region_size_ + app.page_size_ - 1 < 2 ^ 64) :
    footprint app = List.range' (app.region_start_ / app.page_size_)
      ((app.region_start_ + app.region_size_ + (app.page_size_ - 1)) / app.page_size_
        - app.region_start_ / app.page_size_) ∧
    (footprint app).length =
      (app.region_start_ + app.region_size_ + (app.page_size_ - 1)) / app.page_size_
        - app.region_start_ / app.page_size_ ∧
    (app.page_size_ ∣ app.region_start_ →
      (footprint app).length = (app.region_size_ + (app.page_size_ - 1)) / app.page_size_) ∧
    (app.region_size_ + (app.page_size_ - 1)) / app.page_size_ ≤ (footprint app).length ∧
    (footprint app).length ≤ (app.region_size_ + (app.page_size_ - 1)) / app.page_size_ + 1 := by
  have h : NoWrap app := ⟨hpos, hsmall, by omega⟩
  have e : footprint app = List.range' (app.region_start_ / app.page_size_)
      ((app.region_start_ + app.region_size_ + (app.page_size_ - 1)) / app.page_size_
        - app.region_start_ / app.page_size_) := by
    unfold footprint
    rw [pfn_end_eq h]
    rfl
  have hsplit : (app.region_start_ + app.region_size_ + (app.page_size_ - 1)) / app.page_size_
      = app.region_start_ / app.page_size_
        + (app.region_start_ % app.page_size_ + app.region_size_ + (app.page_size_ - 1))
          / app.page_size_ := by
    have h1 := Nat.div_add_mod app.region_start_ app.page_size_
    have h2 : app.region_start_ + app.region_size_ + (app.page_size_ - 1)
        = (app.region_start_ % app.page_size_ + app.region_size_ + (app.page_size_ - 1))
          + app.page_size_ * (app.region_start_ / app.page_size_) := by omega
    rw [h2, Nat.add_mul_div_left _ _ hpos]
    omega
  have hmod := Nat.mod_lt app.region_start_ hpos
  have hlo : (app.region_size_ + (app.page_size_ - 1)) / app.page_size_ ≤
      (app.region_start_ % app.page_size_ + app.region_size_ + (app.page_size_ - 1))
        / app.page_size_ := Nat.div_le_div_right (by omega)
  have hhi : (app.region_start_ % app.page_size_ + app.region_size_ + (app.page_size_ - 1))
      / app.page_size_ ≤ (app.region_size_ + (app.page_size_ - 1)) / app.page_size_ + 1 := by
    have h3 : (app.region_size_ + (app.page_size_ - 1) + app.page_size_) / app.page_size_
        = (app.region_size_ + (app.page_size_ - 1)) / app.page_size_ + 1 :=
      Nat.add_div_right _ hpos
    rw [← h3]
    exact Nat.div_le_div_right (by omega)
  have hlen : (footprint app).length =
      (app.region_start_ + app.region_size_ + (app.page_size_ - 1)) / app.page_size_
        - app.region_start_ / app.page_size_ := by
    rw [e, List.length_range']
  refine ⟨e, hlen, ?_, ?_, ?_⟩
  · intro hdvd
    have hz : app.region_start_ % app.page_size_ = 0 := Nat.mod_eq_zero_of_dvd hdvd
    rw [hlen, hsplit, hz]
    simp
  · rw [hlen, hsplit]
    generalize (app.region_start_ % app.page_size_ + app.region_size_ + (app.page_size_ - 1))
      / app.page_size_ = q1 at hlo hhi
    generalize (app.region_size_ + (app.page_size_ - 1)) / app.page_size_ = q2 at hlo hhi
    generalize app.region_start_ / app.page_size_ = q3
    omega
  · rw [hlen, hsplit]
    generalize (app.region_start_ % app.page_size_ + app.region_size_ + (app.page_size_ - 1))
      / app.page_size_ = q1 at hlo hhi
    generalize (app.region_size_ + (app.page_size_ - 1)) / app.page_size_ = q2 at hlo hhi
    generalize app.region_start_ / app.page_size_ = q3
    omega

/-- C4 at the region `start = 0x1FF0`, `size = 0x20` with 4096-byte pages: the
hypotheses hold and the footprint has two frames. -/
theorem C4_footprint_length_witness :
    (0 < app_two_pages.page_size_ ∧ app_two_pages.page_size_ < 2 ^ 32 ∧
      app_two_pages.region_start_ + app_two_pages.region_size_ + app_two_pages.page_size_ - 1
        < 2 ^ 64) ∧
    (footprint app_two_pages).length = 2 :=
  ⟨⟨by decide, by decide, by decide⟩,
    (C4_footprint_length app_two_pages (by decide) (by decide) (by decide)).2.1.trans
      (by decide)⟩

/-- C5: when `PS > 0`, `start + size + PS - 1 < 2^64` and every fetch succeeds, the
requests issued are those of the frames `floor(start / PS)`,
`floor(start / PS) + 1`, ..., `ceil((start + size) / PS) - 1`, one each and in this
order, all `read_page_phys` in physical mode and all `read_page_virt` (with the
process id) in virtual mode, and the command exits with status 0. -/
theorem C5_requests_follow_footprint (app : Application) (dev : Device)
    (hpos : 0 < app.page_size_) (hsmall : app.page_size_ < 2 ^ 32)
    (hfit : app.region_start_ + app.region_size_ + app.page_size_ - 1 < 2 ^ 64)
    (hall : AllFetched app dev) :
    (main app dev).1.requests =
      (List.range' (app.region_start_ / app.page_size_)
        ((app.region_start_ + app.region_size_ + (app.page_size_ - 1)) / app.page_size_
          - app.region_start_ / app.page_size_)).map
        (fun pfn => if app.addr_is_phys_ then Request.read_page_phys pfn
          else Request.read_page_virt pfn app.pid_) ∧
    (main app dev).2 = some 0 := by
  have h : NoWrap app := ⟨hpos, hsmall, by omega⟩
  rw [main_ok h hall]
  refine ⟨?_, rfl⟩
  simp only [footprint]
  rw [pfn_end_eq h]
  rfl

/-- C5 at the region `start = 0x1FF0`, `size = 0x20` of process 7 with 4096-byte
pages: the requests are `read_page_virt` for frame 1, then for frame 2. -/
theorem C5_requests_follow_footprint_witness :
    (0 < app_two_pages.page_size_ ∧ app_two_pages.page_size_ < 2 ^ 32 ∧
      app_two_pages.region_start_ + app_two_pages.region_size_ + app_two_pages.page_size_ - 1
        < 2 ^ 64 ∧ AllFetched app_two_pages dev_all) ∧
    (main app_two_pages dev_all).1.requests =
      [Request.read_page_virt 1 7, Request.read_page_virt 2 7] :=
  ⟨⟨by decide, by decide, by decide, dev_all_fetched _⟩,
    (C5_requests_follow_footprint app_two_pages dev_all (by decide) (by decide) (by decide)
      (dev_all_fetched _)).1.trans (by decide)⟩

/-- C6 fails as stated: for the virtual region `start = 0xFF8`, `size = 0x10` with
4096-byte pages the footprint is `[0, 1]` and both frames are fetched, but the
output is the translation-entry line of frame 0 and one row; frame 1, which holds
the last two words of that row, gets no translation-entry line. -/
theorem C6_counterexample :
    footprint app_straddle = [0, 1] ∧
    main app_straddle dev_all =
      (⟨[Request.read_page_virt 0 7, Request.read_page_virt 1 7],
        [Line.pte 0x25, Line.row 0xFF8 [0xfbfaf9f8, 0xfffefdfc, 0x04030201, 0x08070605]],
        []⟩, some 0) := by
  constructor
  · decide
  · rw [main_ok ⟨by decide, by decide, by decide⟩ (dev_all_fetched _)]
    decide

/-- C6, amended: for a virtual-mode region with `start` and `size` multiples of 4,
`size > 0`, `PS > 0`, `start + size + PS - 1 < 2^64` and `size + 15 < 2^64` whose
fetches all succeed, the output is the `ceil(size / 16)` rows in order, and the
row `i` is preceded by a translation-entry line exactly when it is the first row
whose start address `start + 16 i` lies in its frame; the line shows the entry
returned for that frame. When `start` and `PS` are multiples of 16 every frame of
the footprint contains the start of a row, so every frame has its line. -/
theorem C6_pte_lines (app : Application) (dev : Device)
    (_h4s : 4 ∣ app.region_start_) (_h4z : 4 ∣ app.region_size_)
    (hsize : 0 < app.region_size_) (hv : app.addr_is_phys_ = false)
    (hpos : 0 < app.page_size_) (hsmall : app.page_size_ < 2 ^ 32)
    (hfit : app.region_start_ + app.region_size_ + app.page_size_ - 1 < 2 ^ 64)
    (hrows : app.region_size_ + 15 < 2 ^ 64)
    (hall : AllFetched app dev) :
    (main app dev).1.cout = expected_output app dev ((app.region_size_ + 15) / 16) ∧
    (main app dev).2 = some 0 ∧
    (16 ∣ app.region_start_ → 16 ∣ app.page_size_ →
      ∀ f, f ∈ footprint app →
        ∃ i, i < (app.region_size_ + 15) / 16 ∧ first_row_of_frame app i = true ∧
          frame_of_row app i = f ∧
          Line.pte (reply_of dev (Request.read_page_virt f app.pid_)).pte
            ∈ (main app dev).1.cout) := by
  have h : NoWrap app := ⟨hpos, hsmall, by omega⟩
  have hout : (main app dev).1.cout = expected_output app dev ((app.region_size_ + 15) / 16) := by
    rw [main_ok h hall, row_idx_end_eq hrows]
  refine ⟨hout, by rw [main_ok h hall], ?_⟩
  intro h16s h16p f hf
  simp only [footprint, List.mem_range'_1] at hf
  have hflt : f < pfn_end app := by omega
  have hend := mul_lt_end h hflt
  have key : ∃ i, i < (app.region_size_ + 15) / 16 ∧ first_row_of_frame app i = true ∧
      frame_of_row app i = f := by
    by_cases hc : f * app.page_size_ ≤ app.region_start_
    · have hle : f ≤ pfn_start app := (Nat.le_div_iff_mul_le hpos).mpr hc
      have hfe : f = pfn_start app := by omega
      refine ⟨0, by omega, ?_, ?_⟩
      · rw [first_row_of_frame_iff]
        exact Or.inl rfl
      · rw [hfe]
        simp [frame_of_row, pfn_start]
    · obtain ⟨a, ha⟩ := h16s
      obtain ⟨b, hb⟩ := h16p
      have hmul : f * app.page_size_ = 16 * (f * b) := by
        rw [hb]
        ring
      have hi16 : app.region_start_ + 16 * (f * b - a) = f * app.page_size_ := by omega
      have hfr : frame_of_row app (f * b - a) = f := by
        unfold frame_of_row
        rw [hi16]
        exact Nat.mul_div_cancel _ hpos
      refine ⟨f * b - a, by omega, ?_, hfr⟩
      rw [first_row_of_frame_iff]
      right
      rw [hfr]
      have hlt : frame_of_row app (f * b - a - 1) < f := by
        unfold frame_of_row
        exact (Nat.div_lt_iff_lt_mul hpos).mpr (by omega)
      omega
  obtain ⟨i, hi, hfirst, hfr⟩ := key
  refine ⟨i, hi, hfirst, hfr, ?_⟩
  rw [hout]
  simp only [expected_output, List.mem_flatMap, List.mem_range]
  refine ⟨i, hi, ?_⟩
  have hreq : request app f = Request.read_page_virt f app.pid_ := by simp [request, hv]
  simp [expected_pte, hv, hfirst, hfr, hreq]

/-- C6 at the region `start = 0x1FF0`, `size = 0x20` of process 7 with 4096-byte
pages: the hypotheses hold and the output is the entry of frame 1, the row at
`0x1FF0`, the entry of frame 2 and the row at `0x2000`. -/
theorem C6_pte_lines_witness :
    (4 ∣ app_two_pages.region_start_ ∧ 4 ∣ app_two_pages.region_size_ ∧
      0 < app_two_pages.region_size_ ∧ app_two_pages.addr_is_phys_ = false ∧
      0 < app_two_pages.page_size_ ∧ app_two_pages.page_size_ < 2 ^ 32 ∧
      app_two_pages.region_start_ + app_two_pages.region_size_ + app_two_pages.page_size_ - 1
        < 2 ^ 64 ∧ app_two_pages.region_size_ + 15 < 2 ^ 64 ∧
      AllFetched app_two_pages dev_all) ∧
    footprint app_two_pages = [1, 2] ∧
    (main app_two_pages dev_all).1.cout =
      [Line.pte 0x1025, Line.row 0x1FF0 [0xf4f3f2f1, 0xf8f7f6f5, 0xfcfbfaf9, 0x00fffefd],
       Line.pte 0x2025, Line.row 0x2000 [0x05040302, 0x09080706, 0x0d0c0b0a, 0x11100f0e]] :=
  ⟨⟨by decide, by decide, by decide, rfl, by decide, by decide, by decide, by decide,
      dev_all_fetched _⟩,
    by decide,
    (C6_pte_lines app_two_pages dev_all (by decide) (by decide) (by decide) rfl (by decide)
      (by decide) (by decide) (by decide) (dev_all_fetched _)).1.trans (by decide)⟩

/-- C7: if the fetch of the `k`-th frame of the footprint fails after the fetches
before it succeeded, the requests issued are those of the frames up to the
failing one and no other, nothing is written to the standard output, the
message of the exception goes to the standard error and the exit status is 1. -/
theorem C7_failed_fetch_aborts (app : Application) (dev : Device) (k : Nat)
    (hs : app.region_start_ < 2 ^ 64) (hz : app.region_size_ < 2 ^ 64)
    (hps : app.page_size_ < 2 ^ 32)
    (hk : pfn_start app + k < pfn_end app)
    (hprev : ∀ j, j < k → (dev (request app (pfn_start app + j))).isSome = true)
    (hfail : dev (request app (pfn_start app + k)) = none) :
    main app dev =
      (⟨(List.range' (pfn_start app) (k + 1)).map (request app), [],
        [⟨app.addr_is_phys_, ((pfn_start app + k) * app.page_size_) % U64⟩]⟩, some 1) := by
  have hne : app.page_size_ ≠ 0 := by
    intro h0
    simp [pfn_end, h0] at hk
  have hfetch : fetch_loop app dev World.init =
      (⟨(List.range' (pfn_start app) (k + 1)).map (request app), [], []⟩,
        .error (.runtime_error
          ⟨app.addr_is_phys_, ((pfn_start app + k) * app.page_size_) % U64⟩)) := by
    unfold fetch_loop
    rcases Nat.eq_zero_or_pos k with h0 | h0
    · subst h0
      simp only [Nat.add_zero] at hk hfail
      obtain ⟨m, hm⟩ : ∃ m, pfn_end app - pfn_start app = m + 1 :=
        ⟨pfn_end app - pfn_start app - 1, by omega⟩
      rw [hm, fetch_from_fail_now app dev m _ _ _ _ hfail]
      simp [World.init]
    · have h : NoWrap app := nowrap_of_two_frames hs hz hps (by omega)
      rw [fetch_from_fail h k _ _ World.init [] [] (le_refl _) hk (by omega) hprev hfail]
      simp [World.init]
  unfold main run
  rw [if_neg hne, hfetch]
  simp

/-- C7 at the region `start = 0x1FF0`, `size = 0x20` of process 7 with 4096-byte
pages when the fetch of frame 2 fails: frames 1 and 2 are requested, the output
is empty and the exit status is 1. -/
theorem C7_failed_fetch_aborts_witness :
    (app_two_pages.region_start_ < 2 ^ 64 ∧ app_two_pages.region_size_ < 2 ^ 64 ∧
      app_two_pages.page_size_ < 2 ^ 32 ∧
      pfn_start app_two_pages + 1 < pfn_end app_two_pages ∧
      (dev_fail_2 (request app_two_pages (pfn_start app_two_pages + 0))).isSome = true ∧
      dev_fail_2 (request app_two_pages (pfn_start app_two_pages + 1)) = none) ∧
    main app_two_pages dev_fail_2 =
      (⟨[Request.read_page_virt 1 7, Request.read_page_virt 2 7], [], [⟨false, 0x2000⟩]⟩,
        some 1) :=
  ⟨⟨by decide, by decide, by decide, by decide, rfl, rfl⟩,
    (C7_failed_fetch_aborts app_two_pages dev_fail_2 1 (by decide) (by decide) (by decide)
      (by decide)
      (fun j hj => by
        obtain rfl : j = 0 := by omega
        rfl)
      rfl).trans (by decide)⟩

/-- C8, as the code behaves at the top of the address space: for the region
`start = 0xfffffffffffffff8`, `size = 4` with 4096-byte pages the rendering loop
has one row with one column to print, but the buffer is empty, so the word of
that column is read past the end of the buffer and no dump is defined. -/
theorem C8_top_page_row_reads_past_buffer :
    row_idx_end app_top = 1 ∧ col_idx_end app_top 0 = 1 ∧
    region_data_idx 0 0 = 0 ∧
    ∀ (dev : Device), main app_top dev = (World.init, none) := by
  refine ⟨by decide, by decide, by decide, ?_⟩
  intro dev
  rfl

/-- C9 fails as stated: a request that names no existing process, a request on
an unmapped page and a request on a page that is not RAM all return the same
value, `-EINVAL`. -/
theorem C9_counterexample :
    (Kernel.kmemspy_read_page_virt Kernel.env_no_process 0x6000).ret = -Kernel.EINVAL ∧
    (Kernel.kmemspy_read_page_virt Kernel.env_unmapped 0x6000).ret = -Kernel.EINVAL ∧
    (Kernel.kmemspy_read_page_virt Kernel.env_not_ram 0x6000).ret = -Kernel.EINVAL := by
  decide

/-- C9, amended: when the args structure can be read and its process id names no
existing process, `kmemspy_read_page_virt` returns `-EINVAL` after
`copy_from_user`, `rcu_read_lock`, `pid_task` and `rcu_read_unlock` only: it
takes no pin, never calls `get_user_pages_remote` and copies nothing to the
caller. The value is the one returned for an unmapped page and for a page that is
not RAM. -/
theorem C9_no_process_no_pin_no_copy (env : Kernel.Env) (argp : Nat)
    (args : Kernel.kmemspy_read_page_virt_args)
    (hargs : env.user_args argp = some args) (hpid : env.pid_task args.pid = none) :
    (Kernel.kmemspy_read_page_virt env argp).ret = -Kernel.EINVAL ∧
    (Kernel.kmemspy_read_page_virt env argp).calls =
      [.copy_from_user argp true, .rcu_read_lock, .pid_task args.pid, .rcu_read_unlock] ∧
    Kernel.total Kernel.pins_taken (Kernel.kmemspy_read_page_virt env argp).calls = 0 ∧
    (∀ c, c ∈ (Kernel.kmemspy_read_page_virt env argp).calls →
      Kernel.is_get_user_pages_remote c = false ∧ Kernel.is_copy_to_user c = false) ∧
    (∀ (env1 : Kernel.Env) (argp1 : Nat) (args1 : Kernel.kmemspy_read_page_virt_args)
        (task mm : Nat),
      env1.user_args argp1 = some args1 → env1.pid_task args1.pid = some task →
      env1.get_task_mm task = some mm →
      (env1.get_user_pages_remote mm ((args1.pfn_virt <<< env1.PAGE_SHIFT) % U64) = none ∨
        ∃ page prot,
          env1.get_user_pages_remote mm ((args1.pfn_virt <<< env1.PAGE_SHIFT) % U64)
            = some (page, prot) ∧ env1.page_is_ram page = false) →
      (Kernel.kmemspy_read_page_virt env1 argp1).ret
        = (Kernel.kmemspy_read_page_virt env argp).ret) := by
  have hr : Kernel.kmemspy_read_page_virt env argp =
      ⟨-Kernel.EINVAL,
        [.copy_from_user argp true, .rcu_read_lock, .pid_task args.pid, .rcu_read_unlock]⟩ := by
    simp [Kernel.kmemspy_read_page_virt, hargs, hpid]
  rw [hr]
  refine ⟨rfl, rfl, ?_, ?_, ?_⟩
  · simp [Kernel.total, Kernel.pins_taken]
  · intro c hc
    simp only [List.mem_cons, List.mem_singleton, List.not_mem_nil, or_false] at hc
    rcases hc with rfl | rfl | rfl | rfl <;> exact ⟨rfl, rfl⟩
  · intro env1 argp1 args1 task mm h1 h2 h3 h4
    rcases h4 with h4 | ⟨page, prot, h4, h5⟩
    · simp [Kernel.kmemspy_read_page_virt, h1, h2, h3, h4]
    · simp [Kernel.kmemspy_read_page_virt, h1, h2, h3, h4, h5]

/-- C9 at the request of `env_no_process`: the hypotheses hold, the call returns
`-EINVAL` and its trace is the four calls before the process lookup fails. -/
theorem C9_no_process_no_pin_no_copy_witness :
    (Kernel.env_no_process.user_args 0x6000 = some ⟨5, 0, 0x7000, 42⟩ ∧
      Kernel.env_no_process.pid_task 42 = none) ∧
    (Kernel.kmemspy_read_page_virt Kernel.env_no_process 0x6000).ret = -Kernel.EINVAL ∧
    (Kernel.kmemspy_read_page_virt Kernel.env_no_process 0x6000).calls =
      [.copy_from_user 0x6000 true, .rcu_read_lock, .pid_task 42, .rcu_read_unlock] :=
  ⟨⟨rfl, rfl⟩,
    (C9_no_process_no_pin_no_copy Kernel.env_no_process 0x6000 ⟨5, 0, 0x7000, 42⟩ rfl rfl).1,
    (C9_no_process_no_pin_no_copy Kernel.env_no_process 0x6000 ⟨5, 0, 0x7000, 42⟩ rfl rfl).2.1⟩

/-- C10: when `start`, `size` and `PS` are multiples of 4, `PS > 0`,
`start + size + PS - 1 < 2^64` and every fetch succeeds, the fetch loop returns a
buffer and a list of entries such that every word the rendering loop reads lies
inside the buffer, in virtual mode every `pte_idx` is below the number of
entries and the `pte_idx` of the first row differs from the sentinel, and `run`
ends normally. -/
theorem C10_render_indices_in_bounds (app : Application) (dev : Device) (w : World)
    (_h4s : 4 ∣ app.region_start_) (_h4z : 4 ∣ app.region_size_)
    (_h4p : 4 ∣ app.page_size_)
    (hpos : 0 < app.page_size_) (hsmall : app.page_size_ < 2 ^ 32)
    (hfit : app.region_start_ + app.region_size_ + app.page_size_ - 1 < 2 ^ 64)
    (hall : AllFetched app dev) :
    ∃ w1 region_data ptes, fetch_loop app dev w = (w1, .ok (region_data, ptes)) ∧
      (∀ row_idx, row_idx < row_idx_end app →
        (∀ col_idx, col_idx < col_idx_end app row_idx →
          region_data_idx row_idx col_idx + 4 ≤ region_data.length) ∧
        (app.addr_is_phys_ = false → pte_idx app row_idx < ptes.length)) ∧
      (app.addr_is_phys_ = false → 0 < row_idx_end app →
        pte_idx app 0 ≠ ptes.length % U64) ∧
      ∃ w2, run app dev w = (w2, .ok ()) := by
  have h : NoWrap app := ⟨hpos, hsmall, by omega⟩
  refine ⟨_, _, _, fetch_loop_ok h hall w, ?_, ?_, ⟨_, run_ok h hall w⟩⟩
  · intro row_idx hrow
    constructor
    · intro col_idx hcol
      rw [chunks_footprint_length h dev]
      exact region_data_idx_in_bounds h hrow hcol
    · intro hv
      have hm := frame_of_row_mem h hrow
      rw [ptes_of_length, hv, pte_idx_eq h hrow]
      simp only [Bool.false_eq_true, if_false]
      omega
  · intro hv hrow
    have hiff := pte_shown_iff h dev hv hrow
    have hfirst : first_row_of_frame app 0 = true := by
      rw [first_row_of_frame_iff]
      exact Or.inl rfl
    have hne := hiff.mpr hfirst
    simpa [prev_at] using hne

/-- C10 at the region `start = 0x1FF0`, `size = 0x20` of process 7 with 4096-byte
pages: the hypotheses hold and `run` ends normally. -/
theorem C10_render_indices_in_bounds_witness :
    (4 ∣ app_two_pages.region_start_ ∧ 4 ∣ app_two_pages.region_size_ ∧
      4 ∣ app_two_pages.page_size_ ∧ 0 < app_two_pages.page_size_ ∧
      app_two_pages.page_size_ < 2 ^ 32 ∧
      app_two_pages.region_start_ + app_two_pages.region_size_ + app_two_pages.page_size_ - 1
        < 2 ^ 64 ∧ AllFetched app_two_pages dev_all) ∧
    row_idx_end app_two_pages = 2 ∧
    ∃ w2, run app_two_pages dev_all World.init = (w2, .ok ()) :=
  ⟨⟨by decide, by decide, by decide, by decide, by decide, by decide, dev_all_fetched _⟩,
    by decide,
    (C10_render_indices_in_bounds app_two_pages dev_all World.init (by decide) (by decide)
      (by decide) (by decide) (by decide) (by decide) (dev_all_fetched _)).choose_spec.choose_spec.choose_spec.2.2.2⟩

end Kmemspy
